import Mathlib

/-!
Verification of the maelstrom data loader (src/maelstrom/loader.py).

The Python source is shallowly embedded: multi-dimensional float arrays become
shape-carrying structures whose `data` field is a total index function (reads
outside the recorded shape are unspecified junk, as in the informal array
model), Python exceptions become an `Except` error kind, Python dicts become
association lists with insert-or-replace update, and floating point numbers
are modelled as real numbers.  Each definition mirrors one function of the
source file; comments cite the corresponding lines.
-/

namespace Maelstrom

/-- Error kinds observable from the loader.  `indexError`, `valueError` and
`nameError` are the Python exception classes the source code can actually
raise; `configError` is the error class named by the specification (no such
class exists in the source, which lets us state the spec/code discrepancies). -/
inductive PyErr : Type
  | indexError
  | valueError
  | nameError
  | configError
deriving DecidableEq, Repr

/-- A 3-dimensional array: shape plus a total index function. -/
structure Array3 (α : Type) : Type where
  d0 : Nat
  d1 : Nat
  d2 : Nat
  data : Nat → Nat → Nat → α

/-- A 4-dimensional array (leadtime, y, x, predictor in the loader). -/
structure Array4 (α : Type) : Type where
  d0 : Nat
  d1 : Nat
  d2 : Nat
  d3 : Nat
  data : Nat → Nat → Nat → Nat → α

/-- A 5-dimensional array (leadtime, patch, y, x, predictor in the loader). -/
structure Array5 (α : Type) : Type where
  d0 : Nat
  d1 : Nat
  d2 : Nat
  d3 : Nat
  d4 : Nat
  data : Nat → Nat → Nat → Nat → Nat → α

/-! ## The patch stage (`Loader.patch`, loader.py lines 412-476)

`patch_tensor` (the 4-D branch, lines 440-454) does
  `a = a[:, :Y//ps * ps, :X//ps * ps, :]`                       (trim),
  `tf.image.extract_patches(a, [1,ps,ps,1], [1,ps,ps,1], SAME)` and
  `tf.reshape(a, [LT, num_patches_y * num_patches_x, ps, ps, P])`.

`trimEdges` is the leading slice: the shape shrinks to the largest multiple of
`ps`, the data function is unchanged because the slice starts at index 0.

`extract_patches` is `tf.image.extract_patches` with patch size = stride =
`ps` on an evenly divisible input (after trimming, SAME padding adds nothing):
output element (b, i, j, k) is input element (b, i*ps + ky, j*ps + kx, kc)
where k enumerates (ky, kx, kc) row-major, i.e. k = (ky*ps + kx)*P + kc.

`reshape4to5` is `tf.reshape` to a 5-D shape: it preserves the row-major flat
order of elements, so the output index is flattened against the new shape and
unflattened against the old one.  (The `tf.expand_dims(a, 0)` the source
performs before reshaping inserts a leading length-1 axis, which leaves the
flat order untouched, so it is absorbed into the single reshape here.)
-/

def trimEdges {α : Type} (a : Array4 α) (ps : Nat) : Array4 α :=
  { d0 := a.d0, d1 := a.d1 / ps * ps, d2 := a.d2 / ps * ps, d3 := a.d3,
    data := a.data }

def extract_patches {α : Type} (a : Array4 α) (ps : Nat) : Array4 α :=
  { d0 := a.d0, d1 := a.d1 / ps, d2 := a.d2 / ps, d3 := ps * ps * a.d3,
    data := fun b i j k =>
      a.data b (i * ps + k / (ps * a.d3)) (j * ps + k / a.d3 % ps) (k % a.d3) }

def reshape4to5 {α : Type} (a : Array4 α) (e0 e1 e2 e3 e4 : Nat) : Array5 α :=
  { d0 := e0, d1 := e1, d2 := e2, d3 := e3, d4 := e4,
    data := fun i0 i1 i2 i3 i4 =>
      a.data
        (((((i0 * e1 + i1) * e2 + i2) * e3 + i3) * e4 + i4) / (a.d1 * a.d2 * a.d3))
        (((((i0 * e1 + i1) * e2 + i2) * e3 + i3) * e4 + i4) / (a.d2 * a.d3) % a.d1)
        (((((i0 * e1 + i1) * e2 + i2) * e3 + i3) * e4 + i4) / a.d3 % a.d2)
        (((((i0 * e1 + i1) * e2 + i2) * e3 + i3) * e4 + i4) % a.d3) }

/-- The inner `patch_tensor` helper of `Loader.patch` (4-D branch). -/
def patch_tensor {α : Type} (a : Array4 α) (ps : Nat) : Array5 α :=
  reshape4to5 (extract_patches (trimEdges a ps) ps)
    a.d0 (a.d1 / ps * (a.d2 / ps)) ps ps a.d3

/-- The `patch_size is None` branch of `Loader.patch`: `tf.expand_dims(x, 1)`
inserts a length-1 patch axis after the lead-time axis. -/
def expandPatchDim {α : Type} (a : Array4 α) : Array5 α :=
  { d0 := a.d0, d1 := 1, d2 := a.d1, d3 := a.d2, d4 := a.d3,
    data := fun i _ j k c => a.data i j k c }

/-- The stage `Loader.patch` applied to a (predictors, targets) pair. -/
def patchStage {α : Type} (patch_size : Option Nat) (p t : Array4 α) :
    Array5 α × Array5 α :=
  match patch_size with
  | none => (expandPatchDim p, expandPatchDim t)
  | some ps => (patch_tensor p ps, patch_tensor t ps)

/-- Spec-side reassembly of tiles ("theoretical unpatch", spec section 8):
given the output of the patch stage and the number of patches along x, place
tile `py*npx + px` (row-major, y-patch-major) back at spatial offset
(py*ps, px*ps). -/
def unpatch {α : Type} (b : Array5 α) (npx ps : Nat) : Array4 α :=
  { d0 := b.d0, d1 := b.d1 / npx * ps, d2 := npx * ps, d3 := b.d4,
    data := fun lt y x c => b.data lt (y / ps * npx + x / ps) (y % ps) (x % ps) c }

/-! ### Flat-index arithmetic helpers -/

lemma blockDiv (A r n : Nat) (hr : r < n) : (A * n + r) / n = A := by
  have hn : 0 < n := Nat.lt_of_le_of_lt (Nat.zero_le r) hr
  rw [Nat.mul_comm, Nat.mul_add_div hn, Nat.div_eq_of_lt hr, Nat.add_zero]

lemma blockMod (A r n : Nat) (hr : r < n) : (A * n + r) % n = r := by
  rw [Nat.mul_comm, Nat.mul_add_mod, Nat.mod_eq_of_lt hr]

lemma blockBound (i1 i2 n1 n2 : Nat) (h1 : i1 < n1) (h2 : i2 < n2) :
    i1 * n2 + i2 < n1 * n2 := by
  calc i1 * n2 + i2 < i1 * n2 + n2 := by omega
    _ = (i1 + 1) * n2 := by ring
    _ ≤ n1 * n2 := Nat.mul_le_mul_right n2 h1

lemma unflat3 (i0 i1 i2 n1 n2 : Nat) (h1 : i1 < n1) (h2 : i2 < n2) :
    ((i0 * n1 + i1) * n2 + i2) / (n1 * n2) = i0
    ∧ ((i0 * n1 + i1) * n2 + i2) / n2 % n1 = i1
    ∧ ((i0 * n1 + i1) * n2 + i2) % n2 = i2 := by
  refine ⟨?_, ?_, ?_⟩
  · have h : (i0 * n1 + i1) * n2 + i2 = i0 * (n1 * n2) + (i1 * n2 + i2) := by ring
    rw [h, blockDiv _ _ _ (blockBound i1 i2 n1 n2 h1 h2)]
  · rw [blockDiv _ _ _ h2, blockMod _ _ _ h1]
  · exact blockMod _ _ _ h2

lemma unflat4 (i0 i1 i2 i3 n1 n2 n3 : Nat)
    (h1 : i1 < n1) (h2 : i2 < n2) (h3 : i3 < n3) :
    (((i0 * n1 + i1) * n2 + i2) * n3 + i3) / (n1 * n2 * n3) = i0
    ∧ (((i0 * n1 + i1) * n2 + i2) * n3 + i3) / (n2 * n3) % n1 = i1
    ∧ (((i0 * n1 + i1) * n2 + i2) * n3 + i3) / n3 % n2 = i2
    ∧ (((i0 * n1 + i1) * n2 + i2) * n3 + i3) % n3 = i3 := by
  refine ⟨?_, ?_, ?_, ?_⟩
  · have h : ((i0 * n1 + i1) * n2 + i2) * n3 + i3
        = i0 * (n1 * n2 * n3) + ((i1 * n2 + i2) * n3 + i3) := by ring
    rw [h, blockDiv _ _ _
      (blockBound (i1 * n2 + i2) i3 (n1 * n2) n3 (blockBound i1 i2 n1 n2 h1 h2) h3)]
  · have h : ((i0 * n1 + i1) * n2 + i2) * n3 + i3
        = (i0 * n1 + i1) * (n2 * n3) + (i2 * n3 + i3) := by ring
    rw [h, blockDiv _ _ _ (blockBound i2 i3 n2 n3 h2 h3), blockMod _ _ _ h1]
  · rw [blockDiv _ _ _ h3, blockMod _ _ _ h2]
  · exact blockMod _ _ _ h3

/-- Pointwise characterisation of `patch_tensor`: tile `py*npx + px` holds the
input block at spatial offset (py*ps, px*ps). -/
lemma patch_tensor_data {α : Type} (a : Array4 α) (ps lt py px iy ix c : Nat)
    (h0 : 0 < ps) (hpy : py < a.d1 / ps) (hpx : px < a.d2 / ps)
    (hiy : iy < ps) (hix : ix < ps) (hc : c < a.d3) :
    (patch_tensor a ps).data lt (py * (a.d2 / ps) + px) iy ix c
      = a.data lt (py * ps + iy) (px * ps + ix) c := by
  dsimp only [patch_tensor, reshape4to5, extract_patches, trimEdges]
  have hA : a.d1 / ps * ps / ps = a.d1 / ps := Nat.mul_div_left _ h0
  have hB : a.d2 / ps * ps / ps = a.d2 / ps := Nat.mul_div_left _ h0
  rw [hA, hB]
  have key : (((lt * (a.d1 / ps * (a.d2 / ps)) + (py * (a.d2 / ps) + px)) * ps + iy) * ps + ix) * a.d3 + c
      = ((lt * (a.d1 / ps) + py) * (a.d2 / ps) + px) * (ps * ps * a.d3)
        + ((iy * ps + ix) * a.d3 + c) := by ring
  rw [key]
  have hw : (iy * ps + ix) * a.d3 + c < ps * ps * a.d3 :=
    blockBound (iy * ps + ix) c (ps * ps) a.d3 (blockBound iy ix ps ps hiy hix) hc
  have U := unflat4 lt py px ((iy * ps + ix) * a.d3 + c)
    (a.d1 / ps) (a.d2 / ps) (ps * ps * a.d3) hpy hpx hw
  rw [U.1, U.2.1, U.2.2.1, U.2.2.2]
  have V := unflat3 iy ix c ps a.d3 hix hc
  rw [V.1, V.2.1, V.2.2]

/-- C1: For every 4-D array, the patch stage with a patch size `ps` that fits
inside both spatial extents produces shape (lead_time, num_y_patches *
num_x_patches, ps, ps, channels), and reassembling the tiles in row-major
patch order (y-patch-major, x-patch-minor) reproduces the trimmed input
exactly: the trailing edge of each spatial axis is discarded by floor
division before tiling. -/
theorem patch_then_unpatch_reproduces_trimmed_input {α : Type}
    (a : Array4 α) (ps : Nat) (h0 : 0 < ps) (h1 : ps ≤ a.d1) (h2 : ps ≤ a.d2) :
    ((patch_tensor a ps).d0 = a.d0
      ∧ (patch_tensor a ps).d1 = a.d1 / ps * (a.d2 / ps)
      ∧ (patch_tensor a ps).d2 = ps
      ∧ (patch_tensor a ps).d3 = ps
      ∧ (patch_tensor a ps).d4 = a.d3)
    ∧ ((unpatch (patch_tensor a ps) (a.d2 / ps) ps).d0 = a.d0
      ∧ (unpatch (patch_tensor a ps) (a.d2 / ps) ps).d1 = a.d1 / ps * ps
      ∧ (unpatch (patch_tensor a ps) (a.d2 / ps) ps).d2 = a.d2 / ps * ps
      ∧ (unpatch (patch_tensor a ps) (a.d2 / ps) ps).d3 = a.d3)
    ∧ ∀ lt y x c, y < a.d1 / ps * ps → x < a.d2 / ps * ps → c < a.d3 →
        (unpatch (patch_tensor a ps) (a.d2 / ps) ps).data lt y x c
          = a.data lt y x c := by
  have hnpx : 0 < a.d2 / ps := Nat.div_pos h2 h0
  have hnpy : 0 < a.d1 / ps := Nat.div_pos h1 h0
  refine ⟨⟨rfl, rfl, rfl, rfl, rfl⟩, ⟨rfl, ?_, rfl, rfl⟩, ?_⟩
  · show a.d1 / ps * (a.d2 / ps) / (a.d2 / ps) * ps = a.d1 / ps * ps
    rw [Nat.mul_div_cancel _ hnpx]
  · intro lt y x c hy hx hc
    show (patch_tensor a ps).data lt (y / ps * (a.d2 / ps) + x / ps) (y % ps) (x % ps) c
      = a.data lt y x c
    have hpy : y / ps < a.d1 / ps := by
      rw [Nat.div_lt_iff_lt_mul h0]
      omega
    have hpx : x / ps < a.d2 / ps := by
      rw [Nat.div_lt_iff_lt_mul h0]
      omega
    rw [patch_tensor_data a ps lt (y / ps) (x / ps) (y % ps) (x % ps) c h0 hpy hpx
      (Nat.mod_lt _ h0) (Nat.mod_lt _ h0) hc]
    have ey : y / ps * ps + y % ps = y := Nat.div_add_mod' y ps
    have ex : x / ps * ps + x % ps = x := Nat.div_add_mod' x ps
    rw [ey, ex]

/-- Concrete instance of the C1 theorem: a (1, 4, 6, 2) array with patch
size 2 (so 2 x 3 tiles), checked at explicit indices. -/
def c1Array : Array4 Int :=
  { d0 := 1, d1 := 4, d2 := 6, d3 := 2,
    data := fun lt y x c => (lt * 10000 + y * 1000 + x * 100 + c : Int) }

theorem patch_then_unpatch_reproduces_trimmed_input_witness :
    0 < 2 ∧ 2 ≤ c1Array.d1 ∧ 2 ≤ c1Array.d2
    ∧ (((patch_tensor c1Array 2).d0 = c1Array.d0
      ∧ (patch_tensor c1Array 2).d1 = c1Array.d1 / 2 * (c1Array.d2 / 2)
      ∧ (patch_tensor c1Array 2).d2 = 2
      ∧ (patch_tensor c1Array 2).d3 = 2
      ∧ (patch_tensor c1Array 2).d4 = c1Array.d3)
    ∧ ((unpatch (patch_tensor c1Array 2) (c1Array.d2 / 2) 2).d0 = c1Array.d0
      ∧ (unpatch (patch_tensor c1Array 2) (c1Array.d2 / 2) 2).d1 = c1Array.d1 / 2 * 2
      ∧ (unpatch (patch_tensor c1Array 2) (c1Array.d2 / 2) 2).d2 = c1Array.d2 / 2 * 2
      ∧ (unpatch (patch_tensor c1Array 2) (c1Array.d2 / 2) 2).d3 = c1Array.d3)
    ∧ ∀ lt y x c, y < c1Array.d1 / 2 * 2 → x < c1Array.d2 / 2 * 2 → c < c1Array.d3 →
        (unpatch (patch_tensor c1Array 2) (c1Array.d2 / 2) 2).data lt y x c
          = c1Array.data lt y x c) :=
  ⟨by decide, by decide, by decide,
    patch_then_unpatch_reproduces_trimmed_input c1Array 2 (by decide) (by decide) (by decide)⟩

/-! ## Configuration, dataset and metadata model

The parts of the `Loader` constructor path that the claims are about:
`__init__` (lines 41-112), `from_config` (114-131), `get_dimension_limits`
(615-634), `load_metadata` (636-661), `load_coefficients` (691-708),
`get_extra_features_normalization` (710-729), `get_feature_name` (731-735)
and `parse_file` (304-351).
-/

/-- An extra-feature descriptor: a record with a `type` key and an optional
`name` key (spec section 3; used at lines 393-406, 731-735). -/
structure Feature : Type where
  type : String
  name : Option String
deriving DecidableEq, Repr

instance : Inhabited Feature := ⟨{ type := "", name := none }⟩

/-- The helper `Loader.get_feature_name` (lines 731-735). -/
def get_feature_name (f : Feature) : String :=
  match f.name with
  | some n => n
  | none => f.type

/-- The constructor options relevant to the claims, after `from_config` has
resolved the string forms.  The normalization option stands for the parsed
content of the YAML file: a mapping from predictor name to (mean, scale). -/
structure Config : Type where
  limit_predictors : Option (List String)
  limit_leadtimes : Option (List Nat)
  x_range : Option (List Nat)
  y_range : Option (List Nat)
  patch_size : Option Nat
  predict_diff : Bool
  extra_features : List Feature
  normalization : Option (List (String × (ℝ × ℝ)))

/-- The abstract content of one NetCDF archive, per the external read
interface (spec section 6): coordinate/name arrays plus the data arrays. -/
structure Dataset : Type where
  predictor : List String
  static_predictor : List String
  leadtime : List Int
  nx : Nat
  ny : Nat
  predictors : Array4 ℝ
  static_predictors : Array3 ℝ
  target_mean : Array3 ℝ

/-- The dictionary built by `Loader.get_dimension_limits` (lines 615-634):
an optional index list per axis name. -/
structure DimLimits : Type where
  predictor : Option (List Nat)
  static_predictor : Option (List Nat)
  leadtime : Option (List Nat)
  x : Option (List Nat)
  y : Option (List Nat)

/-- The method `Loader.get_dimension_limits` (lines 615-634), in the
`leadtime_indices=None` form used by both `load_metadata` and `parse_file`. -/
def get_dimension_limits (cfg : Config) (d : Dataset) : DimLimits :=
  { predictor := cfg.limit_predictors.map (fun lp =>
      (List.range d.predictor.length).filter (fun i => d.predictor.getD i "" ∈ lp)),
    static_predictor := cfg.limit_predictors.map (fun lp =>
      (List.range d.static_predictor.length).filter
        (fun i => d.static_predictor.getD i "" ∈ lp)),
    leadtime := cfg.limit_leadtimes,
    x := cfg.x_range,
    y := cfg.y_range }

/-- Positional selection along a coordinate list, as `xarray.Dataset.isel`
does: `none` means the axis is not limited; an out-of-range index raises
IndexError. -/
def pySelectIdx {α : Type} [Inhabited α] (xs : List α) (idx : Option (List Nat)) :
    Except PyErr (List α) :=
  match idx with
  | none => .ok xs
  | some is =>
    if is.all (fun i => i < xs.length) then .ok (is.map (fun i => xs.getD i default))
    else .error .indexError

/-- Length of a dimension after positional selection (for the x/y axes, whose
coordinate values the loader never reads, only their lengths). -/
def pySelectLen (n : Nat) (idx : Option (List Nat)) : Except PyErr Nat :=
  match idx with
  | none => .ok n
  | some is => if is.all (fun i => i < n) then .ok is.length else .error .indexError

/-- The index map a selection applies to an array axis. -/
def idxFun (idx : Option (List Nat)) : Nat → Nat :=
  match idx with
  | none => fun i => i
  | some is => fun i => is.getD i 0

/-- The selection `dataset.isel(**limit)` (lines 322 and 640): all axes are limited at once,
coordinates and data arrays consistently. -/
def iselDataset (lim : DimLimits) (d : Dataset) : Except PyErr Dataset :=
  match pySelectIdx d.predictor lim.predictor with
  | .error e => .error e
  | .ok pred =>
  match pySelectIdx d.static_predictor lim.static_predictor with
  | .error e => .error e
  | .ok statics =>
  match pySelectIdx d.leadtime lim.leadtime with
  | .error e => .error e
  | .ok lts =>
  match pySelectLen d.nx lim.x with
  | .error e => .error e
  | .ok nx2 =>
  match pySelectLen d.ny lim.y with
  | .error e => .error e
  | .ok ny2 =>
    .ok { predictor := pred, static_predictor := statics, leadtime := lts,
          nx := nx2, ny := ny2,
          predictors :=
            { d0 := lts.length, d1 := ny2, d2 := nx2, d3 := pred.length,
              data := fun l y x c =>
                d.predictors.data (idxFun lim.leadtime l) (idxFun lim.y y)
                  (idxFun lim.x x) (idxFun lim.predictor c) },
          static_predictors :=
            { d0 := ny2, d1 := nx2, d2 := statics.length,
              data := fun y x c =>
                d.static_predictors.data (idxFun lim.y y) (idxFun lim.x x)
                  (idxFun lim.static_predictor c) },
          target_mean :=
            { d0 := lts.length, d1 := ny2, d2 := nx2,
              data := fun l y x =>
                d.target_mean.data (idxFun lim.leadtime l) (idxFun lim.y y)
                  (idxFun lim.x x) } }

/-- The dataset-wide facts `Loader.load_metadata` (lines 636-661) stores. -/
structure Metadata : Type where
  leadtimes : List Int
  num_x_input : Nat
  num_y_input : Nat
  num_input_predictors : Nat
  num_predictors : Nat
  predictor_names_input : List String
  predictor_names : List String
  num_targets : Nat

/-- The patch-size validation of `load_metadata` (lines 647-651): ValueError
when the configured patch size exceeds either spatial extent. -/
def patchSizeCheck (patch_size : Option Nat) (nx ny : Nat) : Except PyErr Unit :=
  match patch_size with
  | some ps =>
    if ps > nx then .error .valueError
    else if ps > ny then .error .valueError
    else .ok ()
  | none => .ok ()

/-- The method `Loader.load_metadata` (lines 636-661): open one file, apply the dimension
limits, record axis lengths and names; raise ValueError when the patch size
exceeds a spatial extent; append extra-feature names; override
`num_predictors` with the allow-list length when one is configured. -/
def load_metadata (cfg : Config) (d : Dataset) : Except PyErr Metadata :=
  match iselDataset (get_dimension_limits cfg d) d with
  | .error e => .error e
  | .ok ds =>
    match patchSizeCheck cfg.patch_size ds.nx ds.ny with
    | .error e => .error e
    | .ok _ =>
    .ok { leadtimes := ds.leadtime,
          num_x_input := ds.nx,
          num_y_input := ds.ny,
          num_input_predictors := ds.predictor.length + ds.static_predictor.length,
          num_predictors :=
            match cfg.limit_predictors with
            | none => ds.predictor.length + ds.static_predictor.length
                + cfg.extra_features.length
            | some lp => lp.length,
          predictor_names_input := ds.predictor ++ ds.static_predictor,
          predictor_names := (ds.predictor ++ ds.static_predictor)
            ++ cfg.extra_features.map get_feature_name,
          num_targets := 1 }

/-! ## Normalization coefficients (`load_coefficients`, lines 691-708)

A Python dict is modelled as an association list with insert-or-replace
update (`d[k] = v`): this preserves the lookup semantics and the uniqueness
of keys.  `np.mean`/`np.std` over `np.arange(n)` are modelled over ℝ by their
mathematical definitions.
-/

/-- Python dict update `d[k] = v`: replace the value when the key is present,
append otherwise. -/
def dictInsert {α : Type} (d : List (String × α)) (k : String) (v : α) :
    List (String × α) :=
  if d.any (fun kv => kv.1 = k) then
    d.map (fun kv => if kv.1 = k then (k, v) else kv)
  else d ++ [(k, v)]

/-- Python dict membership and lookup, `k in d` and `d[k]`. -/
def dictLookup {α : Type} (d : List (String × α)) (k : String) : Option α :=
  (d.find? (fun kv => kv.1 = k)).map Prod.snd

/-- The value `np.mean(np.arange(n))`. -/
noncomputable def npMean (n : Nat) : ℝ :=
  ((Finset.range n).sum (fun i => (i : ℝ))) / n

/-- The value `np.std(np.arange(n))` (population standard deviation). -/
noncomputable def npStd (n : Nat) : ℝ :=
  Real.sqrt (((Finset.range n).sum (fun i => ((i : ℝ) - npMean n) ^ 2)) / n)

/-- The method `Loader.get_extra_features_normalization` (lines 710-729): a dict mapping
each extra-feature name to the analytic (mean, std) of the integer range of
its coordinate axis; `curr` stays at the default (0, 1) for an unknown type. -/
noncomputable def get_extra_features_normalization
    (num_x_input num_y_input num_leadtimes : Nat) (extra_features : List Feature) :
    List (String × (ℝ × ℝ)) :=
  extra_features.foldl (fun acc f =>
    dictInsert acc (get_feature_name f)
      (if f.type = "x" then (npMean num_x_input, npStd num_x_input)
       else if f.type = "y" then (npMean num_y_input, npStd num_y_input)
       else if f.type = "leadtime" then (npMean num_leadtimes, npStd num_leadtimes)
       else ((0 : ℝ), (1 : ℝ)))) []

/-- The mapping the per-name lookup of `load_coefficients` runs against:
the YAML source dict updated in place with the extra-feature coefficients
(lines 698-700, `coefficients[k] = v`). -/
noncomputable def mergedCoefficients (cfg : Config) (meta : Metadata)
    (src : List (String × (ℝ × ℝ))) : List (String × (ℝ × ℝ)) :=
  (get_extra_features_normalization meta.num_x_input meta.num_y_input
      meta.leadtimes.length cfg.extra_features).foldl
    (fun acc kv => dictInsert acc kv.1 kv.2) src

/-- Row assignment `self.coefficients[i, :] = v` on a numpy array of `n` rows: writing past
the last row raises IndexError. -/
def setRow (rows : List (ℝ × ℝ)) (i : Nat) (v : ℝ × ℝ) :
    Except PyErr (List (ℝ × ℝ)) :=
  if i < rows.length then .ok (rows.set i v) else .error .indexError

/-- The value the loop body of `load_coefficients` (lines 702-708) assigns to
row `i` for predictor `name`: the dict entry when present, else the default
(0, 1).  (The `elif name in self.extra_features` branch at line 705 compares a
string against a list of dicts and is therefore never taken; had it been
taken it would raise NameError on the misspelt `sel.coefficients`.) -/
noncomputable def coeffValue (merged : List (String × (ℝ × ℝ))) (name : String) :
    ℝ × ℝ :=
  match dictLookup merged name with
  | some v => v
  | none => ((0 : ℝ), (1 : ℝ))

/-- The `for i, name in enumerate(self.predictor_names)` loop of
`load_coefficients`, writing row `i` for each name in turn. -/
noncomputable def coeffLoop (merged : List (String × (ℝ × ℝ)))
    (names : List String) (i : Nat) (rows : List (ℝ × ℝ)) :
    Except PyErr (List (ℝ × ℝ)) :=
  match names with
  | [] => .ok rows
  | name :: rest =>
    match setRow rows i (coeffValue merged name) with
    | .error e => .error e
    | .ok rows2 => coeffLoop merged rest (i + 1) rows2

/-- The method `Loader.load_coefficients` (lines 691-708): without a normalization source
there is no table; with one, allocate `np.zeros([num_predictors, 2])` with
the scale column set to 1, merge the extra-feature coefficients into the
source dict, then fill row `i` from predictor name `i`. -/
noncomputable def load_coefficients (cfg : Config) (meta : Metadata) :
    Except PyErr (Option (List (ℝ × ℝ))) :=
  match cfg.normalization with
  | none => .ok none
  | some src =>
    match coeffLoop (mergedCoefficients cfg meta src) meta.predictor_names 0
        (List.replicate meta.num_predictors ((0 : ℝ), (1 : ℝ))) with
    | .error e => .error e
    | .ok rows => .ok (some rows)

/-- The constructed loader state the claims are about. -/
structure Loader : Type where
  cfg : Config
  meta : Metadata
  coefficients : Option (List (ℝ × ℝ))

/-- The constructor `Loader.__init__` (lines 41-112) on an already-resolved file list: an
empty list makes `self.load_metadata(self.filenames[0])` raise IndexError;
otherwise metadata is read from the first file and the coefficient table is
built. -/
noncomputable def loaderInit (files : List Dataset) (cfg : Config) :
    Except PyErr Loader :=
  match files with
  | [] => .error .indexError
  | d :: _ =>
    match load_metadata cfg d with
    | .error e => .error e
    | .ok meta =>
      match load_coefficients cfg meta with
      | .error e => .error e
      | .ok coeffs => .ok { cfg := cfg, meta := meta, coefficients := coeffs }

/-! ## `Loader.from_config` (lines 114-131)

A range option may arrive as an explicit index list or as a `"start:end"`
string; the string form is parsed with `split(":")` and `int(...)` into
`range(start, end)`.  (Negative bounds, accepted by Python's `int`, are not
modelled; no claim involves them.)
-/

inductive RangeArg : Type
  | ints : List Nat → RangeArg
  | str : String → RangeArg

/-- A configuration dictionary before `from_config` resolves the string
forms of the range options. -/
structure RawConfig : Type where
  limit_predictors : Option (List String)
  limit_leadtimes : Option RangeArg
  x_range : Option RangeArg
  y_range : Option RangeArg
  patch_size : Option Nat
  predict_diff : Bool
  extra_features : List Feature
  normalization : Option (List (String × (ℝ × ℝ)))

/-- Python's `str.split(sep)` for a one-character separator, over the
character list of the string: `"a:b"` gives `["a", "b"]`, `"::"` gives
`["", "", ""]`. -/
def splitOnChar (sep : Char) : List Char → List (List Char)
  | [] => [[]]
  | c :: rest =>
    match splitOnChar sep rest with
    | [] => if c = sep then [[], []] else [[c]]
    | g :: gs => if c = sep then [] :: g :: gs else (c :: g) :: gs

/-- Python's `int(s)` on a plain digit string (ValueError via `none`
otherwise; signs and surrounding whitespace, which Python also accepts, are
not modelled — no claim involves them). -/
def parseNat (cs : List Char) : Option Nat :=
  match cs with
  | [] => none
  | _ =>
    cs.foldl
      (fun acc c => acc.bind fun n =>
        if c.isDigit then some (n * 10 + (c.toNat - Char.toNat '0')) else none)
      (some 0)

/-- The per-option body of the `for range_variable in range_variables` loop
of `from_config`: a string without a colon raises ValueError; otherwise it
must split on ":" into exactly two integer literals, producing
`range(start, end)`. -/
def parseRangeArg (a : Option RangeArg) : Except PyErr (Option (List Nat)) :=
  match a with
  | none => .ok none
  | some (.ints l) => .ok (some l)
  | some (.str s) =>
    if s.data.contains ':' then
      match splitOnChar ':' s.data with
      | [a, b] =>
        match parseNat a, parseNat b with
        | some x, some y => .ok (some (List.range' x (y - x)))
        | _, _ => .error .valueError
      | _ => .error .valueError
    else .error .valueError

/-- The static method `Loader.from_config` (lines 114-131). -/
noncomputable def from_config (files : List Dataset) (rc : RawConfig) :
    Except PyErr Loader :=
  match parseRangeArg rc.limit_leadtimes with
  | .error e => .error e
  | .ok lt =>
  match parseRangeArg rc.x_range with
  | .error e => .error e
  | .ok xr =>
  match parseRangeArg rc.y_range with
  | .error e => .error e
  | .ok yr =>
    loaderInit files
      { limit_predictors := rc.limit_predictors, limit_leadtimes := lt,
        x_range := xr, y_range := yr, patch_size := rc.patch_size,
        predict_diff := rc.predict_diff, extra_features := rc.extra_features,
        normalization := rc.normalization }

/-! ## `Loader.parse_file` (lines 304-351)
-/

/-- Concatenation, `tf.concat` or `np.concatenate`, of two 4-D arrays along the channel axis. -/
def concat4 {α : Type} (a b : Array4 α) : Array4 α :=
  { d0 := a.d0, d1 := a.d1, d2 := a.d2, d3 := a.d3 + b.d3,
    data := fun l y x c =>
      if c < a.d3 then a.data l y x c else b.data l y x (c - a.d3) }

/-- The method `Loader.parse_file` (lines 304-351): open the file, apply the dimension
limits, broadcast the static predictors across every lead time and append
them along the channel axis, and give the target a trailing channel axis. -/
def parse_file (cfg : Config) (d : Dataset) :
    Except PyErr (Array4 ℝ × Array4 ℝ) :=
  match iselDataset (get_dimension_limits cfg d) d with
  | .error e => .error e
  | .ok ds =>
    .ok
      ((if 0 < ds.static_predictor.length then
          concat4 ds.predictors
            { d0 := ds.predictors.d0, d1 := ds.predictors.d1,
              d2 := ds.predictors.d2, d3 := ds.static_predictors.d2,
              data := fun _ y x c => ds.static_predictors.data y x c }
        else ds.predictors),
       { d0 := ds.target_mean.d0, d1 := ds.target_mean.d1,
         d2 := ds.target_mean.d2, d3 := 1,
         data := fun l y x _ => ds.target_mean.data l y x })

/-! ## The extract-features stage (`Loader.extract_features`, lines 382-410, and
`Loader.broadcast`, lines 599-613)
-/

/-- The tensor `tf.range(n, dtype=tf.float32)` as a 1-D list. -/
def tfRange (n : Nat) : List ℝ :=
  (List.range n).map (fun i : Nat => (i : ℝ))

/-- The helper `Loader.broadcast(tensor, final_shape, axis)` (lines 599-613): expand the
1-D tensor with two length-1 axes and tile it along the other two axes of the
3-D shape; the axis of the tensor keeps the tensor's own length. -/
def broadcast (tensor : List ℝ) (s0 s1 s2 : Nat) (axis : Nat) : Array3 ℝ :=
  if axis = 2 then
    { d0 := s0, d1 := s1, d2 := tensor.length, data := fun _ _ k => tensor.getD k 0 }
  else if axis = 1 then
    { d0 := s0, d1 := tensor.length, d2 := s2, data := fun _ j _ => tensor.getD j 0 }
  else
    { d0 := tensor.length, d1 := s1, d2 := s2, data := fun i _ _ => tensor.getD i 0 }

/-- One iteration of the feature loop (lines 393-403): build the coordinate
channel for a known feature type.  For an unknown type the Python loop leaves
`curr` unset (NameError on the first iteration) or reuses a stale value of
the wrong rank, which then fails inside `tf.concat`; either way the stage
fails, which we model as an error.  No claim exercises that path. -/
def featureChannel (s0 s1 s2 : Nat) (f : Feature) : Except PyErr (Array3 ℝ) :=
  if f.type = "x" then .ok (broadcast (tfRange s2) s0 s1 s2 2)
  else if f.type = "y" then .ok (broadcast (tfRange s1) s0 s1 s2 1)
  else if f.type = "leadtime" then .ok (broadcast (tfRange s0) s0 s1 s2 0)
  else .error .nameError

/-- The full feature loop: one coordinate channel per descriptor, in
descriptor list order. -/
def extract_channels (s0 s1 s2 : Nat) (feats : List Feature) :
    Except PyErr (List (Array3 ℝ)) :=
  match feats with
  | [] => .ok []
  | f :: rest =>
    match featureChannel s0 s1 s2 f with
    | .error e => .error e
    | .ok c =>
      match extract_channels s0 s1 s2 rest with
      | .error e => .error e
      | .ok cs => .ok (c :: cs)

/-- The expansion `tf.expand_dims(curr, -1)` (line 405). -/
def expand3to4 (c : Array3 ℝ) : Array4 ℝ :=
  { d0 := c.d0, d1 := c.d1, d2 := c.d2, d3 := 1, data := fun i j k _ => c.data i j k }

/-- The stage `Loader.extract_features` (lines 382-410): compute one channel per
descriptor from the predictor shape and concatenate them after the input
channels along axis 3; targets pass through. -/
def extract_features (feats : List Feature) (p t : Array4 ℝ) :
    Except PyErr (Array4 ℝ × Array4 ℝ) :=
  match extract_channels p.d0 p.d1 p.d2 feats with
  | .error e => .error e
  | .ok cs => .ok (cs.foldl (fun acc c => concat4 acc (expand3to4 c)) p, t)

/-! ## The diff stage (`Loader.diff`, lines 478-492, and
`Loader.raw_predictor_index`, lines 581-587)
-/

/-- Python's `list.index`: position of the first occurrence, ValueError when
the element is absent. -/
def pyIndex (xs : List String) (v : String) : Except PyErr Nat :=
  match xs with
  | [] => .error .valueError
  | x :: rest =>
    if x = v then .ok 0
    else
      match pyIndex rest v with
      | .error e => .error e
      | .ok i => .ok (i + 1)

/-- The property `Loader.raw_predictor_index` (lines 581-587): `None` unless
`predict_diff` is set, in which case the fixed name "air_temperature_2m" is
looked up in the predictor name list. -/
def raw_predictor_index (predict_diff : Bool) (names : List String) :
    Except PyErr (Option Nat) :=
  if predict_diff then
    match pyIndex names "air_temperature_2m" with
    | .error e => .error e
    | .ok i => .ok (some i)
  else .ok none

/-- The stage `Loader.diff` (lines 478-492): when a raw-predictor index is available,
subtract that predictor channel from the targets; otherwise pass both arrays
through.  The predictors component of the result is always the input. -/
def diff (predict_diff : Bool) (names : List String) (p t : Array5 ℝ) :
    Except PyErr (Array5 ℝ × Array5 ℝ) :=
  match raw_predictor_index predict_diff names with
  | .error e => .error e
  | .ok none => .ok (p, t)
  | .ok (some ip) =>
    .ok (p, { d0 := t.d0, d1 := t.d1, d2 := t.d2, d3 := t.d3, d4 := t.d4,
              data := fun i j k l c => t.data i j k l c - p.data i j k l ip })

/-! ## The normalize stage (`Loader.normalize`, lines 494-530)
-/

/-- The stage `Loader.normalize` (lines 494-530): without a coefficient table the pair
passes through; with one, the per-channel mean column is subtracted from the
predictors and the result divided by the scale column, both broadcast across
all non-channel axes; targets are returned untouched in both branches. -/
noncomputable def normalize (coefficients : Option (List (ℝ × ℝ)))
    (p t : Array5 ℝ) : Array5 ℝ × Array5 ℝ :=
  match coefficients with
  | none => (p, t)
  | some table =>
    ({ d0 := p.d0, d1 := p.d1, d2 := p.d2, d3 := p.d3, d4 := p.d4,
       data := fun i j k l c =>
         (p.data i j k l c - (table.getD c ((0 : ℝ), (1 : ℝ))).1)
           / (table.getD c ((0 : ℝ), (1 : ℝ))).2 },
     t)

/-! ## Claims about the diff and normalize stages -/

lemma pyIndex_not_mem (xs : List String) (v : String) (h : v ∉ xs) :
    pyIndex xs v = .error .valueError := by
  induction xs with
  | nil => rfl
  | cons x rest ih =>
    simp only [List.mem_cons, not_or] at h
    simp only [pyIndex]
    rw [if_neg (fun hx => h.1 hx.symm), ih h.2]

/-- C6: with `predict_diff=False` the diff stage returns both arrays
unchanged, and for every configuration under which the stage returns at all,
the predictors component of the result is the input predictors array. -/
theorem diff_disabled_is_identity_and_predictors_never_modified
    (names : List String) (p t : Array5 ℝ) :
    diff false names p t = .ok (p, t)
    ∧ ∀ (predict_diff : Bool) (r : Array5 ℝ × Array5 ℝ),
        diff predict_diff names p t = .ok r → r.1 = p := by
  constructor
  · rfl
  · intro pd r h
    unfold diff at h
    cases hq : raw_predictor_index pd names with
    | error e => rw [hq] at h; exact Except.noConfusion h
    | ok o =>
      rw [hq] at h
      cases o with
      | none => cases h; rfl
      | some ip => cases h; rfl

def w5p : Array5 ℝ :=
  { d0 := 1, d1 := 1, d2 := 1, d3 := 1, d4 := 2, data := fun _ _ _ _ _ => 0 }

def w5t : Array5 ℝ :=
  { d0 := 1, d1 := 1, d2 := 1, d3 := 1, d4 := 1, data := fun _ _ _ _ _ => 0 }

theorem diff_disabled_is_identity_and_predictors_never_modified_witness :
    diff false ["a"] w5p w5t = .ok (w5p, w5t) ∧ (w5p, w5t).1 = w5p :=
  ⟨(diff_disabled_is_identity_and_predictors_never_modified ["a"] w5p w5t).1,
   (diff_disabled_is_identity_and_predictors_never_modified ["a"] w5p w5t).2
     false (w5p, w5t) (by rfl)⟩

/-- C9: with `predict_diff=True` and no predictor named
"air_temperature_2m", the raw-channel lookup raises ValueError, so the diff
stage errors instead of passing through. -/
theorem diff_raises_when_raw_predictor_absent
    (names : List String) (p t : Array5 ℝ)
    (h : "air_temperature_2m" ∉ names) :
    diff true names p t = .error .valueError := by
  unfold diff raw_predictor_index
  rw [if_pos rfl, pyIndex_not_mem names _ h]

theorem diff_raises_when_raw_predictor_absent_witness :
    "air_temperature_2m" ∉ ["a"] ∧ diff true ["a"] w5p w5t = .error .valueError :=
  ⟨by decide, diff_raises_when_raw_predictor_absent ["a"] w5p w5t (by decide)⟩

/-- C10: the normalize stage returns the targets unchanged, with and without
a coefficient table. -/
theorem normalize_returns_targets_unchanged
    (coefficients : Option (List (ℝ × ℝ))) (p t : Array5 ℝ) :
    (normalize coefficients p t).2 = t := by
  cases coefficients <;> rfl

theorem normalize_returns_targets_unchanged_witness :
    (normalize (some [((3 : ℝ), (2 : ℝ))]) w5p w5t).2 = w5t :=
  normalize_returns_targets_unchanged (some [((3 : ℝ), (2 : ℝ))]) w5p w5t

/-! ## Structure of the coefficient table build -/

lemma getD_set_eq {α : Type} (l : List α) (i : Nat) (v d : α) (h : i < l.length) :
    (l.set i v).getD i d = v := by
  induction l generalizing i with
  | nil => simp at h
  | cons x rest ih =>
    cases i with
    | zero => rfl
    | succ n => simpa using ih n (by simpa using h)

lemma getD_set_ne {α : Type} (l : List α) (i j : Nat) (v d : α) (h : i ≠ j) :
    (l.set i v).getD j d = l.getD j d := by
  induction l generalizing i j with
  | nil => simp [List.set]
  | cons x rest ih =>
    cases i with
    | zero =>
      cases j with
      | zero => exact absurd rfl h
      | succ m => rfl
    | succ n =>
      cases j with
      | zero => rfl
      | succ m => simpa using ih n m (by omega)

/-- Full characterisation of the row-filling loop of `load_coefficients`:
when the names starting at row `i` fit inside the table, the loop succeeds,
preserves the row count, writes `coeffValue` of name `j - i` into row `j` for
the covered rows and leaves every other row unchanged. -/
lemma coeffLoop_spec (merged : List (String × (ℝ × ℝ))) (names : List String) :
    ∀ (i : Nat) (rows : List (ℝ × ℝ)), i + names.length ≤ rows.length →
    ∃ out, coeffLoop merged names i rows = .ok out
      ∧ out.length = rows.length
      ∧ (∀ j, j < i → out.getD j ((0 : ℝ), (1 : ℝ)) = rows.getD j ((0 : ℝ), (1 : ℝ)))
      ∧ (∀ j, i ≤ j → j < i + names.length →
          out.getD j ((0 : ℝ), (1 : ℝ)) = coeffValue merged (names.getD (j - i) ""))
      ∧ (∀ j, i + names.length ≤ j →
          out.getD j ((0 : ℝ), (1 : ℝ)) = rows.getD j ((0 : ℝ), (1 : ℝ))) := by
  induction names with
  | nil =>
    intro i rows _
    exact ⟨rows, rfl, rfl, fun j _ => rfl, fun j hij hj => absurd hj (by simp; omega),
      fun j _ => rfl⟩
  | cons name rest ih =>
    intro i rows h
    have hlen : rest.length + 1 = (name :: rest).length := by simp
    have hi : i < rows.length := by simp at h; omega
    obtain ⟨out, hout, holen, hlow, hmid, hhigh⟩ :=
      ih (i + 1) (rows.set i (coeffValue merged name)) (by simp at h ⊢; omega)
    refine ⟨out, ?_, ?_, ?_, ?_, ?_⟩
    · simp only [coeffLoop, setRow, if_pos hi]
      exact hout
    · rw [holen, List.length_set]
    · intro j hj
      rw [hlow j (by omega), getD_set_ne _ _ _ _ _ (by omega)]
    · intro j hij hj
      rcases Nat.eq_or_lt_of_le hij with heq | hlt
      · subst heq
        rw [hlow i (by omega), getD_set_eq _ _ _ _ hi]
        simp
      · have hji : j - i = (j - (i + 1)) + 1 := by omega
        rw [hji, List.getD_cons_succ]
        exact hmid j (by omega) (by simp at hj ⊢; omega)
    · intro j hj
      rw [hhigh j (by simp at hj ⊢; omega), getD_set_ne _ _ _ _ _ (by omega)]

/-- Whenever the row-filling loop terminates without an IndexError it
returns exactly the rows it was given, updated in place: the row count is
that of the allocated table. -/
lemma coeffLoop_length (merged : List (String × (ℝ × ℝ))) (names : List String) :
    ∀ (i : Nat) (rows out : List (ℝ × ℝ)),
      coeffLoop merged names i rows = .ok out → out.length = rows.length := by
  induction names with
  | nil =>
    intro i rows out h
    cases h
    rfl
  | cons name rest ih =>
    intro i rows out h
    unfold coeffLoop at h
    cases hs : setRow rows i (coeffValue merged name) with
    | error e => rw [hs] at h; exact Except.noConfusion h
    | ok rows2 =>
      rw [hs] at h
      have h2 : rows2.length = rows.length := by
        unfold setRow at hs
        by_cases hi : i < rows.length
        · rw [if_pos hi] at hs
          cases hs
          exact List.length_set rows i _
        · rw [if_neg hi] at hs
          exact Except.noConfusion hs
      rw [ih (i + 1) rows2 out h, h2]

/-- Successful table build: when the name list fits in the allocated table
the build succeeds and row `i` is the merged-mapping value for name `i`
(default (0,1) when absent). -/
lemma load_coefficients_ok (cfg : Config) (meta : Metadata)
    (src : List (String × (ℝ × ℝ))) (hn : cfg.normalization = some src)
    (hfit : meta.predictor_names.length ≤ meta.num_predictors) :
    ∃ rows, load_coefficients cfg meta = .ok (some rows)
      ∧ rows.length = meta.num_predictors
      ∧ ∀ j, j < meta.predictor_names.length →
          rows.getD j ((0 : ℝ), (1 : ℝ))
            = coeffValue (mergedCoefficients cfg meta src)
                (meta.predictor_names.getD j "") := by
  obtain ⟨out, hout, hlen, _, hmid, _⟩ :=
    coeffLoop_spec (mergedCoefficients cfg meta src) meta.predictor_names 0
      (List.replicate meta.num_predictors ((0 : ℝ), (1 : ℝ))) (by simpa using hfit)
  refine ⟨out, ?_, ?_, ?_⟩
  · simp only [load_coefficients, hn, hout]
  · rw [hlen, List.length_replicate]
  · intro j hj
    simpa using hmid j (Nat.zero_le j) (by simpa using hj)

/-- Inversion of a successful build that produced a table: a normalization
source must have been configured and the loop succeeded on it. -/
lemma load_coefficients_some_inv (cfg : Config) (meta : Metadata)
    (rows : List (ℝ × ℝ)) (h : load_coefficients cfg meta = .ok (some rows)) :
    ∃ src, cfg.normalization = some src
      ∧ coeffLoop (mergedCoefficients cfg meta src) meta.predictor_names 0
          (List.replicate meta.num_predictors ((0 : ℝ), (1 : ℝ))) = .ok rows := by
  cases hn : cfg.normalization with
  | none => simp only [load_coefficients, hn] at h; simp at h
  | some src =>
    simp only [load_coefficients, hn] at h
    cases hq : coeffLoop (mergedCoefficients cfg meta src) meta.predictor_names 0
        (List.replicate meta.num_predictors ((0 : ℝ), (1 : ℝ))) with
    | error e => rw [hq] at h; exact Except.noConfusion h
    | ok out =>
      rw [hq] at h
      have : some out = some rows := Except.ok.inj h
      exact ⟨src, rfl, by rw [hq, Option.some.inj this]⟩

/-- Shape facts `load_metadata` guarantees: the full predictor name list has
one entry per (filtered) input predictor plus one per extra feature, while
`num_predictors` is that same count only when no allow-list is configured
and the allow-list length otherwise. -/
lemma load_metadata_facts (cfg : Config) (d : Dataset) (meta : Metadata)
    (h : load_metadata cfg d = .ok meta) :
    meta.predictor_names.length
      = meta.num_input_predictors + cfg.extra_features.length
    ∧ meta.num_predictors
      = (match cfg.limit_predictors with
        | none => meta.num_input_predictors + cfg.extra_features.length
        | some lp => lp.length) := by
  cases hq : iselDataset (get_dimension_limits cfg d) d with
  | error e =>
    simp only [load_metadata, hq] at h
    exact Except.noConfusion h
  | ok ds =>
    simp only [load_metadata, hq] at h
    cases hp : patchSizeCheck cfg.patch_size ds.nx ds.ny with
    | error e => rw [hp] at h; exact Except.noConfusion h
    | ok u =>
      rw [hp] at h
      have hm := Except.ok.inj h
      subst hm
      constructor
      · simp only [List.length_append, List.length_map]
      · rfl

/-- Inversion of a successful construction: metadata comes from the first
file and the coefficient table from that metadata, under the same config. -/
lemma loaderInit_inv (files : List Dataset) (cfg : Config) (L : Loader)
    (h : loaderInit files cfg = .ok L) :
    L.cfg = cfg ∧ ∃ d, load_metadata cfg d = .ok L.meta
      ∧ load_coefficients cfg L.meta = .ok L.coefficients := by
  cases files with
  | nil => exact Except.noConfusion h
  | cons d rest =>
    cases hm : load_metadata cfg d with
    | error e =>
      simp only [loaderInit, hm] at h
      exact Except.noConfusion h
    | ok meta =>
      simp only [loaderInit, hm] at h
      cases hc : load_coefficients cfg meta with
      | error e => rw [hc] at h; exact Except.noConfusion h
      | ok coeffs =>
        rw [hc] at h
        have hL := Except.ok.inj h
        subst hL
        exact ⟨rfl, d, hm, hc⟩

/-- C2 amended: for every constructed loader whose coefficient table was
built, the row count equals `num_predictors`; this equals the predictor-name
list length exactly when no predictor allow-list is configured (when one is
configured the row count is the allow-list length instead, which can differ
from the name-list length, e.g. with extra features present). -/
theorem coefficient_table_row_count (files : List Dataset) (cfg : Config)
    (L : Loader) (rows : List (ℝ × ℝ))
    (hL : loaderInit files cfg = .ok L) (hrows : L.coefficients = some rows) :
    rows.length = L.meta.num_predictors
    ∧ (cfg.limit_predictors = none →
        rows.length = L.meta.predictor_names.length) := by
  obtain ⟨hcfg, d, hm, hc⟩ := loaderInit_inv files cfg L hL
  rw [hrows] at hc
  obtain ⟨src, hn, hloop⟩ := load_coefficients_some_inv cfg L.meta rows hc
  have hlen := coeffLoop_length _ _ _ _ _ hloop
  rw [List.length_replicate] at hlen
  have hfacts := load_metadata_facts cfg d L.meta hm
  refine ⟨hlen, fun hnone => ?_⟩
  rw [hlen, hfacts.1, hfacts.2]
  simp only [hnone]

def dsW : Dataset :=
  { predictor := ["a"], static_predictor := [], leadtime := [0],
    nx := 1, ny := 1,
    predictors := { d0 := 1, d1 := 1, d2 := 1, d3 := 1, data := fun _ _ _ _ => 0 },
    static_predictors := { d0 := 1, d1 := 1, d2 := 0, data := fun _ _ _ => 0 },
    target_mean := { d0 := 1, d1 := 1, d2 := 1, data := fun _ _ _ => 0 } }

def cfgW : Config :=
  { limit_predictors := none, limit_leadtimes := none, x_range := none,
    y_range := none, patch_size := none, predict_diff := false,
    extra_features := [], normalization := some [] }

def rowsW : List (ℝ × ℝ) := [((0 : ℝ), (1 : ℝ))]

def metaW : Metadata :=
  { leadtimes := [0], num_x_input := 1, num_y_input := 1,
    num_input_predictors := 1, num_predictors := 1,
    predictor_names_input := ["a"], predictor_names := ["a"], num_targets := 1 }

def LW : Loader := { cfg := cfgW, meta := metaW, coefficients := some rowsW }

theorem coefficient_table_row_count_witness :
    loaderInit [dsW] cfgW = .ok LW
    ∧ LW.coefficients = some rowsW
    ∧ (rowsW.length = LW.meta.num_predictors
        ∧ (cfgW.limit_predictors = none →
            rowsW.length = LW.meta.predictor_names.length)) :=
  ⟨rfl, rfl, coefficient_table_row_count [dsW] cfgW LW rowsW rfl rfl⟩

def dsA : Dataset :=
  { predictor := ["a", "b"], static_predictor := [], leadtime := [0],
    nx := 1, ny := 1,
    predictors := { d0 := 1, d1 := 1, d2 := 1, d3 := 2, data := fun _ _ _ _ => 0 },
    static_predictors := { d0 := 1, d1 := 1, d2 := 0, data := fun _ _ _ => 0 },
    target_mean := { d0 := 1, d1 := 1, d2 := 1, data := fun _ _ _ => 0 } }

def cfgC2 : Config :=
  { limit_predictors := some ["a", "b", "c", "d"], limit_leadtimes := none,
    x_range := none, y_range := none, patch_size := none, predict_diff := false,
    extra_features := [{ type := "x", name := none }], normalization := some [] }

/-- C2 counterexample: with a predictor allow-list (containing two names
absent from the file) and one extra feature, the loader constructs, the
coefficient table is built with 4 rows, but the full predictor name list has
3 entries — the claimed invariant fails. -/
theorem coefficient_table_row_count_counterexample :
    ((loaderInit [dsA] cfgC2).toOption.bind fun L =>
        L.coefficients.map fun rows => (rows.length, L.meta.predictor_names.length))
      = some (4, 3)
    ∧ (4 : Nat) ≠ 3 :=
  ⟨rfl, by decide⟩

/-- C3: when a normalization source is supplied and the name list fits the
table, the build succeeds and row `i` equals the lookup of predictor name `i`
in the source mapping updated with the analytic extra-feature coefficients
(the merge happens before the lookup), defaulting to (0, 1) when the name is
absent from the merged mapping. -/
theorem coefficient_rows_follow_merged_lookup
    (cfg : Config) (meta : Metadata) (src : List (String × (ℝ × ℝ)))
    (hn : cfg.normalization = some src)
    (hfit : meta.predictor_names.length ≤ meta.num_predictors)
    (i : Nat) (hi : i < meta.predictor_names.length) :
    ∃ rows, load_coefficients cfg meta = .ok (some rows)
      ∧ rows.getD i ((0 : ℝ), (1 : ℝ))
          = (dictLookup (mergedCoefficients cfg meta src)
              (meta.predictor_names.getD i "")).getD ((0 : ℝ), (1 : ℝ)) := by
  obtain ⟨rows, h1, _, h3⟩ := load_coefficients_ok cfg meta src hn hfit
  refine ⟨rows, h1, ?_⟩
  rw [h3 i hi]
  unfold coeffValue
  cases dictLookup (mergedCoefficients cfg meta src)
    (meta.predictor_names.getD i "") <;> rfl

def srcX : List (String × (ℝ × ℝ)) :=
  [("b", ((2 : ℝ), (3 : ℝ))), ("x", ((9 : ℝ), (9 : ℝ)))]

def cfgX : Config :=
  { limit_predictors := none, limit_leadtimes := none, x_range := none,
    y_range := none, patch_size := none, predict_diff := false,
    extra_features := [{ type := "x", name := none }],
    normalization := some srcX }

def metaX : Metadata :=
  { leadtimes := [0, 1, 2], num_x_input := 5, num_y_input := 4,
    num_input_predictors := 2, num_predictors := 3,
    predictor_names_input := ["a", "b"], predictor_names := ["a", "b", "x"],
    num_targets := 1 }

theorem coefficient_rows_follow_merged_lookup_witness :
    cfgX.normalization = some srcX
    ∧ metaX.predictor_names.length ≤ metaX.num_predictors
    ∧ 2 < metaX.predictor_names.length
    ∧ ∃ rows, load_coefficients cfgX metaX = .ok (some rows)
      ∧ rows.getD 2 ((0 : ℝ), (1 : ℝ))
          = (dictLookup (mergedCoefficients cfgX metaX srcX)
              (metaX.predictor_names.getD 2 "")).getD ((0 : ℝ), (1 : ℝ)) :=
  ⟨rfl, by decide, by decide,
    coefficient_rows_follow_merged_lookup cfgX metaX srcX rfl (by decide) 2 (by decide)⟩

/-- C8 amended: `load_coefficients` has no zero-scale check; a scale of 0
supplied by the (merged) normalization source is copied into the table of a
successfully built loader, with no error of any kind. -/
theorem zero_scale_copied_into_table
    (cfg : Config) (meta : Metadata) (src : List (String × (ℝ × ℝ))) (m : ℝ)
    (hn : cfg.normalization = some src)
    (hfit : meta.predictor_names.length ≤ meta.num_predictors)
    (i : Nat) (hi : i < meta.predictor_names.length)
    (hz : dictLookup (mergedCoefficients cfg meta src)
        (meta.predictor_names.getD i "") = some (m, 0)) :
    ∃ rows, load_coefficients cfg meta = .ok (some rows)
      ∧ (rows.getD i ((0 : ℝ), (1 : ℝ))).2 = 0 := by
  obtain ⟨rows, h1, _, h3⟩ := load_coefficients_ok cfg meta src hn hfit
  refine ⟨rows, h1, ?_⟩
  rw [h3 i hi]
  unfold coeffValue
  rw [hz]

def srcB : List (String × (ℝ × ℝ)) := [("a", ((0 : ℝ), (0 : ℝ)))]

def dsB : Dataset :=
  { predictor := ["a"], static_predictor := [], leadtime := [0],
    nx := 1, ny := 1,
    predictors := { d0 := 1, d1 := 1, d2 := 1, d3 := 1, data := fun _ _ _ _ => 0 },
    static_predictors := { d0 := 1, d1 := 1, d2 := 0, data := fun _ _ _ => 0 },
    target_mean := { d0 := 1, d1 := 1, d2 := 1, data := fun _ _ _ => 0 } }

def cfgC8 : Config :=
  { limit_predictors := none, limit_leadtimes := none, x_range := none,
    y_range := none, patch_size := none, predict_diff := false,
    extra_features := [], normalization := some srcB }

def metaB : Metadata :=
  { leadtimes := [0], num_x_input := 1, num_y_input := 1,
    num_input_predictors := 1, num_predictors := 1,
    predictor_names_input := ["a"], predictor_names := ["a"], num_targets := 1 }

theorem zero_scale_copied_into_table_witness :
    cfgC8.normalization = some srcB
    ∧ metaB.predictor_names.length ≤ metaB.num_predictors
    ∧ 0 < metaB.predictor_names.length
    ∧ dictLookup (mergedCoefficients cfgC8 metaB srcB)
        (metaB.predictor_names.getD 0 "") = some ((0 : ℝ), 0)
    ∧ ∃ rows, load_coefficients cfgC8 metaB = .ok (some rows)
      ∧ (rows.getD 0 ((0 : ℝ), (1 : ℝ))).2 = 0 :=
  ⟨rfl, by decide, by decide, rfl,
    zero_scale_copied_into_table cfgC8 metaB srcB 0 rfl (by decide) 0 (by decide) rfl⟩

/-- C8 counterexample: with a source that explicitly supplies scale 0 for
predictor "a", construction succeeds (no ConfigError, no error at all) and
the built table's row 0 carries scale 0. -/
theorem zero_scale_counterexample :
    (loaderInit [dsB] cfgC8).toOption.isSome = true
    ∧ ((loaderInit [dsB] cfgC8).toOption.bind fun L => L.coefficients).map
        (fun rows => (rows.getD 0 ((0 : ℝ), (1 : ℝ))).2) = some 0 :=
  ⟨rfl, rfl⟩

/-- C7 amended: construction on an empty resolved file list fails
immediately — the loader is never usable — but with an uncaught IndexError
from `self.filenames[0]`, not a ConfigError carrying a descriptive message. -/
theorem empty_file_list_construction_raises_index_error (cfg : Config) :
    loaderInit [] cfg = .error .indexError :=
  rfl

def cfgC7 : Config :=
  { limit_predictors := none, limit_leadtimes := none, x_range := none,
    y_range := none, patch_size := none, predict_diff := false,
    extra_features := [], normalization := none }

/-- C7 counterexample: on an empty file list the raised error is IndexError,
not the ConfigError the claim requires. -/
theorem empty_file_list_counterexample :
    loaderInit [] cfgC7 = .error .indexError
    ∧ loaderInit [] cfgC7 ≠ .error .configError :=
  ⟨rfl, by intro h; simp [loaderInit] at h⟩

theorem empty_file_list_construction_raises_index_error_witness :
    loaderInit [] cfgC7 = .error .indexError :=
  empty_file_list_construction_raises_index_error cfgC7

/-! ## Claim C4: string-form lead-time limits -/

/-- The effect of `isel` when only the lead-time axis is limited. -/
lemma iselDataset_only_leadtime (d : Dataset) (is : List Nat)
    (h : (is.all fun i => i < d.leadtime.length) = true) :
    ∃ ds, iselDataset
        { predictor := none, static_predictor := none, leadtime := some is,
          x := none, y := none } d = .ok ds
      ∧ ds.leadtime.length = is.length
      ∧ ds.predictors.d0 = is.length
      ∧ ds.target_mean.d0 = is.length
      ∧ ds.static_predictor = d.static_predictor := by
  simp only [iselDataset, pySelectIdx, pySelectLen, h, if_true]
  exact ⟨_, rfl, by simp, by simp, by simp, rfl⟩

def rc4 : RawConfig :=
  { limit_predictors := none, limit_leadtimes := some (.str "1:3"),
    x_range := none, y_range := none, patch_size := none, predict_diff := false,
    extra_features := [], normalization := none }

def cfg4 : Config :=
  { limit_predictors := none, limit_leadtimes := some [1, 2], x_range := none,
    y_range := none, patch_size := none, predict_diff := false,
    extra_features := [], normalization := none }

/-- C4: a loader configured through the string form `limit_leadtimes="1:3"`
on a file with 5 lead times resolves `num_leadtimes = 2` (the string parses
to the index range [1, 2]), and a file read under the same configuration
returns predictor and target arrays whose lead-time axis has length exactly
2: the dimension limits are applied identically in both places. -/
theorem limit_leadtimes_string_applied_consistently (d : Dataset)
    (h5 : d.leadtime.length = 5) :
    ∃ L, from_config [d] rc4 = .ok L
      ∧ L.meta.leadtimes.length = 2
      ∧ ∃ p t, parse_file L.cfg d = .ok (p, t) ∧ p.d0 = 2 ∧ t.d0 = 2 := by
  have hguard : (([1, 2] : List Nat).all fun i => i < d.leadtime.length) = true := by
    simp only [h5]
    decide
  obtain ⟨ds, hds, hlts, hpd0, htd0, hstat⟩ := iselDataset_only_leadtime d [1, 2] hguard
  have hlim : get_dimension_limits cfg4 d
      = { predictor := none, static_predictor := none, leadtime := some [1, 2],
          x := none, y := none } := rfl
  have hisel : iselDataset (get_dimension_limits cfg4 d) d = .ok ds := by
    rw [hlim]
    exact hds
  have hmeta : ∃ M, load_metadata cfg4 d = .ok M ∧ M.leadtimes = ds.leadtime := by
    have hpatch : patchSizeCheck cfg4.patch_size ds.nx ds.ny = .ok () := rfl
    simp only [load_metadata, hisel, hpatch]
    exact ⟨_, rfl, rfl⟩
  obtain ⟨M, hM, hMlts⟩ := hmeta
  have hlc : load_coefficients cfg4 M = .ok none := rfl
  have hinit : loaderInit [d] cfg4
      = .ok { cfg := cfg4, meta := M, coefficients := none } := by
    simp only [loaderInit, hM, hlc]
  have hp13 : parseRangeArg rc4.limit_leadtimes = .ok (some [1, 2]) := rfl
  have hpx : parseRangeArg rc4.x_range = .ok none := rfl
  have hpy : parseRangeArg rc4.y_range = .ok none := rfl
  have hfc : from_config [d] rc4 = loaderInit [d] cfg4 := by
    simp only [from_config, hp13, hpx, hpy]
    rfl
  refine ⟨_, hfc.trans hinit, ?_, ?_⟩
  · show M.leadtimes.length = 2
    rw [hMlts, hlts]
    rfl
  · show ∃ p t, parse_file cfg4 d = .ok (p, t) ∧ p.d0 = 2 ∧ t.d0 = 2
    simp only [parse_file, hisel]
    refine ⟨_, _, rfl, ?_, ?_⟩
    · split <;> simp [concat4, hpd0]
    · simp [htd0]

def ds5 : Dataset :=
  { predictor := ["a"], static_predictor := [], leadtime := [0, 1, 2, 3, 4],
    nx := 1, ny := 1,
    predictors := { d0 := 5, d1 := 1, d2 := 1, d3 := 1, data := fun _ _ _ _ => 0 },
    static_predictors := { d0 := 1, d1 := 1, d2 := 0, data := fun _ _ _ => 0 },
    target_mean := { d0 := 5, d1 := 1, d2 := 1, data := fun _ _ _ => 0 } }

theorem limit_leadtimes_string_applied_consistently_witness :
    ds5.leadtime.length = 5
    ∧ ∃ L, from_config [ds5] rc4 = .ok L
      ∧ L.meta.leadtimes.length = 2
      ∧ ∃ p t, parse_file L.cfg ds5 = .ok (p, t) ∧ p.d0 = 2 ∧ t.d0 = 2 :=
  ⟨by decide, limit_leadtimes_string_applied_consistently ds5 (by decide)⟩

/-! ## Claim C5: the extract-features stage appends coordinate channels -/

instance : Inhabited (Array3 ℝ) :=
  ⟨{ d0 := 0, d1 := 0, d2 := 0, data := fun _ _ _ => 0 }⟩

/-- When every descriptor has a known type, the feature loop succeeds and
yields one channel per descriptor, in order. -/
lemma extract_channels_ok (s0 s1 s2 : Nat) (feats : List Feature)
    (hk : ∀ f ∈ feats, f.type = "x" ∨ f.type = "y" ∨ f.type = "leadtime") :
    ∃ cs, extract_channels s0 s1 s2 feats = .ok cs
      ∧ cs.length = feats.length
      ∧ ∀ j, j < feats.length →
          featureChannel s0 s1 s2 (feats.getD j default) = .ok (cs.getD j default) := by
  induction feats with
  | nil => exact ⟨[], rfl, rfl, fun j hj => absurd hj (by simp)⟩
  | cons f rest ih =>
    obtain ⟨cs, hcs, hlen, hj⟩ := ih fun g hg => hk g (List.mem_cons_of_mem f hg)
    have hf := hk f (List.mem_cons_self f rest)
    have hc : ∃ c, featureChannel s0 s1 s2 f = .ok c := by
      rcases hf with h | h | h <;> · simp [featureChannel, h]
    obtain ⟨c, hcval⟩ := hc
    refine ⟨c :: cs, ?_, by simp [hlen], ?_⟩
    · simp only [extract_channels, hcval, hcs]
    · intro j hj'
      cases j with
      | zero => simpa using hcval
      | succ n => simpa using hj n (by simpa using hj')

/-- The channel axis grows by one per appended feature channel. -/
lemma foldl_concat_d3 (cs : List (Array3 ℝ)) (p : Array4 ℝ) :
    (cs.foldl (fun acc c => concat4 acc (expand3to4 c)) p).d3
      = p.d3 + cs.length := by
  induction cs generalizing p with
  | nil => simp
  | cons c rest ih =>
    simp only [List.foldl_cons, ih, List.length_cons]
    simp [concat4, expand3to4]
    omega

/-- Channels below the base predictor count are untouched by appending. -/
lemma foldl_concat_data_low (cs : List (Array3 ℝ)) (p : Array4 ℝ)
    (l y x k : Nat) (hk : k < p.d3) :
    (cs.foldl (fun acc c => concat4 acc (expand3to4 c)) p).data l y x k
      = p.data l y x k := by
  induction cs generalizing p with
  | nil => rfl
  | cons c rest ih =>
    simp only [List.foldl_cons]
    rw [ih (concat4 p (expand3to4 c)) (by simp [concat4, expand3to4]; omega)]
    simp [concat4, hk]

/-- Appended channel `j` carries the data of the `j`-th computed feature
channel. -/
lemma foldl_concat_data_mid (cs : List (Array3 ℝ)) (p : Array4 ℝ)
    (j : Nat) (hj : j < cs.length) (l y x : Nat) :
    (cs.foldl (fun acc c => concat4 acc (expand3to4 c)) p).data l y x (p.d3 + j)
      = (cs.getD j default).data l y x := by
  induction cs generalizing p j with
  | nil => simp at hj
  | cons c rest ih =>
    simp only [List.foldl_cons]
    cases j with
    | zero =>
      rw [foldl_concat_data_low rest (concat4 p (expand3to4 c))
        l y x (p.d3 + 0) (by simp [concat4, expand3to4])]
      simp [concat4, expand3to4]
    | succ n =>
      have harg : p.d3 + (n + 1) = (concat4 p (expand3to4 c)).d3 + n := by
        simp [concat4, expand3to4]
        omega
      rw [harg, ih (concat4 p (expand3to4 c)) n (by simpa using hj)]
      simp

lemma getD_map_range (n x : Nat) (f : Nat → ℝ) (h : x < n) :
    ((List.range n).map f).getD x 0 = f x := by
  have h1 : ((List.range n).map f)[x]? = some (f x) := by
    rw [List.getElem?_map, List.getElem?_range h]
    rfl
  rw [List.getD_eq_getElem?_getD, h1]
  rfl

lemma tfRange_getD (n x : Nat) (h : x < n) : (tfRange n).getD x 0 = (x : ℝ) := by
  unfold tfRange
  exact getD_map_range n x _ h

/-- C5: for every predictor array and descriptor list of known feature
types, the extract-features stage succeeds, appends one trailing channel per
descriptor after all input channels in list order, and the channel of an
`{type: "x"}` descriptor at position (lead_time, y, x) holds the x
coordinate, for every lead_time and y.  With 2 base predictors and one x
feature the appended channel sits at channel index 2 = p.d3 + 0. -/
theorem extract_features_appends_x_coordinate_channel
    (feats : List Feature) (p t : Array4 ℝ)
    (hk : ∀ f ∈ feats, f.type = "x" ∨ f.type = "y" ∨ f.type = "leadtime")
    (j : Nat) (hj : j < feats.length) (hx : (feats.getD j default).type = "x")
    (lt y x : Nat) (hxb : x < p.d2) :
    ∃ q, extract_features feats p t = .ok (q, t)
      ∧ q.d3 = p.d3 + feats.length
      ∧ q.data lt y x (p.d3 + j) = (x : ℝ) := by
  obtain ⟨cs, hcs, hlen, hchan⟩ := extract_channels_ok p.d0 p.d1 p.d2 feats hk
  refine ⟨cs.foldl (fun acc c => concat4 acc (expand3to4 c)) p, ?_, ?_, ?_⟩
  · simp only [extract_features, hcs]
  · rw [foldl_concat_d3, hlen]
  · rw [foldl_concat_data_mid cs p j (by omega) lt y x]
    have hcj := hchan j hj
    rw [featureChannel, hx, if_pos rfl] at hcj
    have hget : cs.getD j default = broadcast (tfRange p.d2) p.d0 p.d1 p.d2 2 :=
      (Except.ok.inj hcj).symm
    rw [hget]
    simp only [broadcast, if_pos rfl]
    exact tfRange_getD p.d2 x hxb

def p5 : Array4 ℝ :=
  { d0 := 1, d1 := 1, d2 := 3, d3 := 2, data := fun _ _ _ _ => 0 }

def t5 : Array4 ℝ :=
  { d0 := 1, d1 := 1, d2 := 3, d3 := 1, data := fun _ _ _ _ => 0 }

theorem extract_features_appends_x_coordinate_channel_witness :
    (∀ f ∈ [({ type := "x", name := none } : Feature)],
        f.type = "x" ∨ f.type = "y" ∨ f.type = "leadtime")
    ∧ 0 < [({ type := "x", name := none } : Feature)].length
    ∧ ([({ type := "x", name := none } : Feature)].getD 0 default).type = "x"
    ∧ 1 < p5.d2
    ∧ ∃ q, extract_features [{ type := "x", name := none }] p5 t5 = .ok (q, t5)
      ∧ q.d3 = p5.d3 + [({ type := "x", name := none } : Feature)].length
      ∧ q.data 0 0 1 (p5.d3 + 0) = ((1 : Nat) : ℝ) :=
  ⟨by decide, by decide, by decide, by decide,
    extract_features_appends_x_coordinate_channel
      [{ type := "x", name := none }] p5 t5 (by decide) 0 (by decide) (by decide)
      0 0 1 (by decide)⟩

end Maelstrom
